import Mathlib

/- Verification of TradeFlow-Core: a Soroban invoice-tokenization and lending
protocol together with its Express metadata API and its offline-sync frontend
hook. The two smart contracts (invoice_nft, lending_pool) are specified and
documented in the tree (PR_SECURITY_ENHANCEMENTS.md, README) but their Rust
sources under contracts/ are not present; their state machines are modelled
from the specification. The HTTP endpoint and the offline sync queue are
translated from server.js and frontend/src/hooks/useOfflineSync.ts. -/

namespace TradeFlow

/-- Ledger addresses (Soroban Address values), abstracted as naturals. -/
abbrev Address := Nat

/-- Ed25519 verification keys (BytesN 32), abstracted as naturals. -/
abbrev PubKey := Nat

/-- Signatures (BytesN 64), kept as byte lists so that tampering with a
single byte is expressible. -/
abbrev Sig := List Nat

/-- Modelled from the spec: the Invoice record owned by the invoice_nft
contract (contracts/invoice_nft/src/lib.rs is absent from the tree). Fields
follow section 3 of the specification. -/
structure Invoice where
  owner : Address
  metadata_hash : Nat
  face_value : Int
  currency : Nat
  due_date : Nat
  risk_score : Nat
  escrowed : Bool
deriving DecidableEq

/-- Modelled from the spec: the Loan record of the lending_pool contract
(contracts/lending_pool/src/lib.rs is absent from the tree). Fields follow
the Loan struct printed in PR_SECURITY_ENHANCEMENTS.md. -/
structure Loan where
  id : Nat
  borrower : Address
  invoice_id : Nat
  principal : Int
  interest : Int
  start_time : Nat
  due_date : Nat
  is_repaid : Bool
  is_defaulted : Bool
deriving DecidableEq

/-- Modelled from the spec: the singleton ProtocolConfig entries
(DataKey Admin, TokenAddress, Paused, BackendPubkey, LoanId). -/
structure ProtocolConfig where
  admin : Address
  token_address : Nat
  backend_pubkey : PubKey
  paused : Bool
  next_loan_id : Nat
deriving DecidableEq

/-- Modelled from the spec: the whole persisted key/value ledger state seen
by the two contracts, plus the stablecoin balances of the external asset
ledger consumed through transfer. The pool address is the lending pool
vault that receives repayments and liquidated collateral. -/
structure LedgerState where
  config : ProtocolConfig
  pool : Address
  invoices : Nat → Option Invoice
  loans : Nat → Option Loan
  balances : Address → Int
  next_invoice_id : Nat

/-- Modelled from the spec: the caller-visible transaction-aborting error
taxonomy of section 7. -/
inductive Err where
  | ContractPaused
  | InvoiceExpired
  | InvalidSignature
  | NotFound
  | AlreadyEscrowed
  | PrincipalExceedsFaceValue
  | InsufficientBalance
  | AlreadyFinalized
  | LoanNotDefaulted
  | Unauthorized
deriving DecidableEq

/-- Modelled from the spec: the canonical payload
(owner, metadata_hash, face_value, currency, due_date, risk_score) that the
backend signs over and mint verifies. -/
structure MintPayload where
  owner : Address
  metadata_hash : Nat
  face_value : Int
  currency : Nat
  due_date : Nat
  risk_score : Nat
deriving DecidableEq

/-- Modelled from the spec: seconds per year for the interest formula. The
spec leaves 365 versus 365.25 days open; 365 days is chosen here and
documented, matching the plain APY wording of the PR notes. -/
def SECONDS_PER_YEAR : Nat := 31536000

/-- Modelled from the spec: linear simple interest at a 5 percent nominal
annual rate, interest = principal * 5 * elapsed_seconds / (100 * seconds_per_year),
with integer arithmetic truncating toward zero (Int.tdiv) and elapsed_seconds
= repay_time - start_time floored at zero (Nat subtraction). -/
def calculate_interest (principal : Int) (start_time now : Nat) : Int :=
  Int.tdiv (principal * 5 * ((now - start_time : Nat) : Int))
    (100 * (SECONDS_PER_YEAR : Int))

/-- Modelled from the spec: invoice_nft mint. Fails with InvoiceExpired if
due_date is not strictly in the future, then with InvalidSignature if the
signature does not verify against backend_pubkey over the canonical payload;
otherwise persists a fresh invoice with escrowed false and returns its id. -/
def mint (verify : MintPayload → Sig → PubKey → Bool) (s : LedgerState) (now : Nat)
    (owner : Address) (mh : Nat) (fv : Int) (cur : Nat) (dd : Nat) (rs : Nat)
    (sig : Sig) : Except Err (Nat × LedgerState) :=
  if dd ≤ now then .error .InvoiceExpired
  else if verify ⟨owner, mh, fv, cur, dd, rs⟩ sig s.config.backend_pubkey = false then
    .error .InvalidSignature
  else
    .ok (s.next_invoice_id, { s with
      invoices := fun i => if i = s.next_invoice_id
        then some ⟨owner, mh, fv, cur, dd, rs, false⟩ else s.invoices i,
      next_invoice_id := s.next_invoice_id + 1 })

/-- Modelled from the spec: AdminControl-gated backend key rotation. -/
def set_backend_pubkey (s : LedgerState) (caller : Address) (key : PubKey) :
    Except Err LedgerState :=
  if caller = s.config.admin then
    .ok { s with config := { s.config with backend_pubkey := key } }
  else .error .Unauthorized

/-- Modelled from the spec: AdminControl-gated pause switch. -/
def set_paused (s : LedgerState) (caller : Address) (flag : Bool) :
    Except Err LedgerState :=
  if caller = s.config.admin then
    .ok { s with config := { s.config with paused := flag } }
  else .error .Unauthorized

/-- Modelled from the spec: InvoiceRegistry.transfer_ownership, callable from
the liquidation path; NotFound if the invoice does not exist. -/
def transfer_ownership (s : LedgerState) (invoice_id : Nat) (new_owner : Address) :
    Except Err LedgerState :=
  match s.invoices invoice_id with
  | none => .error .NotFound
  | some inv => .ok { s with
      invoices := fun i => if i = invoice_id
        then some { inv with owner := new_owner } else s.invoices i }

/-- Modelled from the spec: InvoiceRegistry.set_escrowed, the internal
mutator used by the lending pool; NotFound if the invoice is missing. -/
def set_escrowed (s : LedgerState) (invoice_id : Nat) (flag : Bool) :
    Except Err LedgerState :=
  match s.invoices invoice_id with
  | none => .error .NotFound
  | some inv => .ok { s with
      invoices := fun i => if i = invoice_id
        then some { inv with escrowed := flag } else s.invoices i }

/-- Balance update of the external stablecoin ledger for transfer
(from, to, amount). -/
def transferBal (bal : Address → Int) (src dst : Address) (amt : Int) :
    Address → Int :=
  fun a => bal a - (if a = src then amt else 0) + (if a = dst then amt else 0)

/-- Modelled from the spec: lending_pool borrow. Checks, in order, the pause
switch, invoice existence, the escrow flag and principal against face value;
then escrows the invoice and persists a fresh Loan with interest 0 and both
lifecycle flags false, bumping next_loan_id. Returns the fresh loan id. -/
def borrow (s : LedgerState) (now : Nat) (borrower : Address) (invoice_id : Nat)
    (principal : Int) (term_duration : Nat) : Except Err (Nat × LedgerState) :=
  if s.config.paused then .error .ContractPaused
  else match s.invoices invoice_id with
  | none => .error .NotFound
  | some inv =>
    if inv.escrowed then .error .AlreadyEscrowed
    else if inv.face_value < principal then .error .PrincipalExceedsFaceValue
    else
      .ok (s.config.next_loan_id, { s with
        invoices := fun i => if i = invoice_id
          then some { inv with escrowed := true } else s.invoices i,
        loans := fun i => if i = s.config.next_loan_id
          then some ⟨s.config.next_loan_id, borrower, invoice_id, principal, 0,
            now, now + term_duration, false, false⟩ else s.loans i,
        config := { s.config with next_loan_id := s.config.next_loan_id + 1 } })

/-- Modelled from the spec: lending_pool repay_loan. Checks the pause switch,
loan existence and the finalization flags; computes the accrued interest and
the total due; checks the borrower balance; then transfers the total due to
the pool, marks the loan repaid and un-escrows the invoice. -/
def repay_loan (s : LedgerState) (now : Nat) (loan_id : Nat) :
    Except Err LedgerState :=
  if s.config.paused then .error .ContractPaused
  else match s.loans loan_id with
  | none => .error .NotFound
  | some loan =>
    if loan.is_repaid || loan.is_defaulted then .error .AlreadyFinalized
    else
      let interest := calculate_interest loan.principal loan.start_time now
      let total := loan.principal + interest
      if s.balances loan.borrower < total then .error .InsufficientBalance
      else
        set_escrowed { s with
          balances := transferBal s.balances loan.borrower s.pool total,
          loans := fun i => if i = loan_id
            then some { loan with interest := interest, is_repaid := true }
            else s.loans i } loan.invoice_id false

/-- Modelled from the spec: lending_pool liquidate. Checks the pause switch,
loan existence, the finalization flags and that the due date has passed
(LoanNotDefaulted while now is at most due_date); then marks the loan
defaulted, transfers invoice ownership to the pool and un-escrows it. -/
def liquidate (s : LedgerState) (now : Nat) (loan_id : Nat) :
    Except Err LedgerState :=
  if s.config.paused then .error .ContractPaused
  else match s.loans loan_id with
  | none => .error .NotFound
  | some loan =>
    if loan.is_repaid || loan.is_defaulted then .error .AlreadyFinalized
    else if now ≤ loan.due_date then .error .LoanNotDefaulted
    else
      let s1 : LedgerState := { s with
        loans := fun i => if i = loan_id
          then some { loan with is_defaulted := true } else s.loans i }
      match transfer_ownership s1 loan.invoice_id s1.pool with
      | .error e => .error e
      | .ok s2 => set_escrowed s2 loan.invoice_id false

/-- Modelled from the spec: the entry points of section 6 as one call type. -/
inductive Call where
  | mint (owner : Address) (mh : Nat) (fv : Int) (cur : Nat) (dd : Nat)
      (rs : Nat) (sig : Sig)
  | set_backend_pubkey (key : PubKey)
  | set_paused (flag : Bool)
  | borrow (invoice_id : Nat) (principal : Int) (term_duration : Nat)
  | repay_loan (loan_id : Nat)
  | liquidate (loan_id : Nat)

/-- Modelled from the spec: one atomic invocation of an entry point, returning
either an error or an optional fresh id together with the new state. -/
def step (verify : MintPayload → Sig → PubKey → Bool) (s : LedgerState)
    (now : Nat) (caller : Address) : Call → Except Err (Option Nat × LedgerState)
  | .mint owner mh fv cur dd rs sig =>
    match mint verify s now owner mh fv cur dd rs sig with
    | .error e => .error e
    | .ok (id, s2) => .ok (some id, s2)
  | .set_backend_pubkey key =>
    match set_backend_pubkey s caller key with
    | .error e => .error e
    | .ok s2 => .ok (none, s2)
  | .set_paused flag =>
    match set_paused s caller flag with
    | .error e => .error e
    | .ok s2 => .ok (none, s2)
  | .borrow invoice_id principal term_duration =>
    match borrow s now caller invoice_id principal term_duration with
    | .error e => .error e
    | .ok (id, s2) => .ok (some id, s2)
  | .repay_loan loan_id =>
    match repay_loan s now loan_id with
    | .error e => .error e
    | .ok s2 => .ok (none, s2)
  | .liquidate loan_id =>
    match liquidate s now loan_id with
    | .error e => .error e
    | .ok s2 => .ok (none, s2)

/-- An invocation as the surrounding host commits it: a failure surfaces the
error tag and leaves the persisted state exactly as before. -/
def stepRun (verify : MintPayload → Sig → PubKey → Bool) (s : LedgerState)
    (now : Nat) (caller : Address) (c : Call) : Option Err × LedgerState :=
  match step verify s now caller c with
  | .error e => (some e, s)
  | .ok (_, s2) => (none, s2)

/-- A sequence of committed invocations, each tagged with its ledger time and
its caller. -/
def runTrace (verify : MintPayload → Sig → PubKey → Bool) :
    LedgerState → List (Nat × Address × Call) → LedgerState
  | s, [] => s
  | s, (now, caller, c) :: tr => runTrace verify (stepRun verify s now caller c).2 tr

/-- Per-loan evolution allowed by the lifecycle claims: a finalized loan is
frozen, and each lifecycle flag only ever goes from false to true. -/
def LoanEvolves (l l2 : Loan) : Prop :=
  ((l.is_repaid = true ∨ l.is_defaulted = true) → l2 = l) ∧
  (l.is_repaid = true → l2.is_repaid = true) ∧
  (l.is_defaulted = true → l2.is_defaulted = true)

/-- Loan-store invariant: no loan is simultaneously repaid and defaulted, and
every id at or above next_loan_id is still unassigned. -/
def LoansInv (s : LedgerState) : Prop :=
  (∀ id l, s.loans id = some l → ¬(l.is_repaid = true ∧ l.is_defaulted = true)) ∧
  (∀ id, s.config.next_loan_id ≤ id → s.loans id = none)

end TradeFlow

namespace Api

/-- One mock asset of the GET /api/assets handler in server.js. The market
value is a JavaScript number literal; every literal in the mock table is
exactly representable as a rational, which is how it is carried here (the
handler never computes with it). -/
structure Asset where
  id : Nat
  name : String
  symbol : String
  type : String
  value : Rat
deriving DecidableEq

/-- The mockAssets table of server.js, lines 52 to 65. -/
def mockAssets : List Asset :=
  [⟨1, "Bitcoin", "BTC", "cryptocurrency", 45000⟩,
   ⟨2, "Ethereum", "ETH", "cryptocurrency", 3000⟩,
   ⟨3, "US Dollar", "USD", "fiat", 1⟩,
   ⟨4, "Euro", "EUR", "fiat", 1.1⟩,
   ⟨5, "Gold", "XAU", "commodity", 1800⟩,
   ⟨6, "Silver", "XAG", "commodity", 25⟩,
   ⟨7, "Apple Stock", "AAPL", "stock", 150⟩,
   ⟨8, "Tesla Stock", "TSLA", "stock", 800⟩,
   ⟨9, "Real Estate", "RE", "property", 250000⟩,
   ⟨10, "Bonds", "BND", "bond", 1000⟩,
   ⟨11, "Litecoin", "LTC", "cryptocurrency", 150⟩,
   ⟨12, "Ripple", "XRP", "cryptocurrency", 0.6⟩]

/-- JavaScript parseInt on a string with the default radix: skip leading
whitespace, take an optional sign and then the longest run of decimal digits;
NaN (here none) when that run is empty. Hexadecimal prefixes are not
modelled; no claim involves them. -/
def parseIntJS (s : String) : Option Int :=
  let cs := s.toList.dropWhile
    (fun c => c == ' ' || c == '\t' || c == '\n' || c == '\r')
  let core : List Char → Option Nat := fun l =>
    let ds := l.takeWhile (fun c => c.isDigit)
    if ds.isEmpty then none
    else some (ds.foldl (fun a c => a * 10 + (c.toNat - 48)) 0)
  match cs with
  | '-' :: rest => (core rest).map (fun n => -(n : Int))
  | '+' :: rest => (core rest).map (fun n => (n : Int))
  | rest => (core rest).map (fun n => (n : Int))

/-- JavaScript x || d applied to a parseInt result: NaN (none) and zero are
falsy and fall back to the default. -/
def jsNumOr (v : Option Int) (d : Int) : Int :=
  match v with
  | none => d
  | some n => if n = 0 then d else n

/-- The pagination object of the /api/assets response. -/
structure Pagination where
  page : Int
  limit : Int
  total : Nat
  message : String
deriving DecidableEq

/-- The JSON body of the /api/assets response. -/
structure AssetsResponse where
  assets : List Asset
  pagination : Pagination
deriving DecidableEq

/-- The GET /api/assets handler of server.js, lines 42 to 77: page and limit
come from parseInt(query) || default, and the full mock table is returned
unsliced together with the echoed pagination data. A request parameter that
is absent is none; parseInt of an absent (undefined) value is NaN. -/
def getAssets (pageQ limitQ : Option String) : AssetsResponse :=
  let page := jsNumOr (pageQ.bind parseIntJS) 1
  let limit := jsNumOr (limitQ.bind parseIntJS) 10
  { assets := mockAssets,
    pagination :=
      { page := page, limit := limit, total := mockAssets.length,
        message := "Pagination parameters parsed successfully. Database pagination will be implemented in a future issue." } }

end Api

namespace Offline

/-- The two item types of the offline sync queue in useOfflineSync.ts. -/
inductive ItemType where
  | proof
  | verification
deriving DecidableEq

/-- SyncQueueItem of useOfflineSync.ts; the payload is opaque. -/
structure SyncQueueItem where
  id : String
  type : ItemType
  data : Nat
  timestamp : Nat
  retryCount : Nat
deriving DecidableEq

/-- The persisted and in-memory state that syncPendingItems touches: the
syncQueue object store, the per-type data stores (tracked by the record ids
they contain) and the pendingItems React state. The lastSyncTime and
syncError strings are presentation state and are not modelled. -/
structure SyncState where
  syncQueue : List SyncQueueItem
  proofStore : List String
  verificationStore : List String
  pendingItems : List SyncQueueItem
deriving DecidableEq

/-- IDBObjectStore.put on the syncQueue store: replace the records with the
same key, or append when the key is new. -/
def putQueue (q : List SyncQueueItem) (it : SyncQueueItem) : List SyncQueueItem :=
  if q.any (fun x => x.id == it.id) then
    q.map (fun x => if x.id == it.id then it else x)
  else q ++ [it]

/-- IDBObjectStore.delete on the syncQueue store. -/
def deleteQueue (q : List SyncQueueItem) (i : String) : List SyncQueueItem :=
  q.filter (fun x => !(x.id == i))

/-- IDBObjectStore.delete on a per-type data store. -/
def deleteStore (l : List String) (i : String) : List String :=
  l.filter (fun x => !(x == i))

/-- Delete a record id from the data store matching the item type
(item.type + suffix in the source). -/
def dataDelete (st : SyncState) (t : ItemType) (i : String) : SyncState :=
  match t with
  | .proof => { st with proofStore := deleteStore st.proofStore i }
  | .verification => { st with verificationStore := deleteStore st.verificationStore i }

/-- The data store of the given item type. -/
def storeOf (st : SyncState) : ItemType → List String
  | .proof => st.proofStore
  | .verification => st.verificationStore

/-- The loop body of syncPendingItems (useOfflineSync.ts lines 153 to 194)
for one item, threading the stores and the failedSyncs accumulator. The POST
outcome is abstracted by the ok predicate; a thrown fetch error and a
non-ok response take the same retry path, except that only an ok response
deletes the record from its data store. -/
def processItem (ok : SyncQueueItem → Bool) (acc : SyncState × List SyncQueueItem)
    (item : SyncQueueItem) : SyncState × List SyncQueueItem :=
  if ok item then
    (dataDelete acc.1 item.type item.id, acc.2)
  else
    let u := { item with retryCount := item.retryCount + 1 }
    if u.retryCount < 3 then
      ({ acc.1 with syncQueue := putQueue acc.1.syncQueue u }, acc.2 ++ [u])
    else
      ({ acc.1 with syncQueue := deleteQueue acc.1.syncQueue item.id }, acc.2)

/-- syncPendingItems of useOfflineSync.ts, lines 138 to 210: bail out when
offline, already syncing or nothing is pending; otherwise process a snapshot
of pendingItems and store the failed items back as the new pendingItems. -/
def syncPendingItems (ok : SyncQueueItem → Bool) (isOnline isSyncing : Bool)
    (st : SyncState) : SyncState :=
  if !isOnline || isSyncing || st.pendingItems.isEmpty then st
  else
    let r := st.pendingItems.foldl (processItem ok) (st, [])
    { r.1 with pendingItems := r.2 }

/-- A concrete queued proof item used to evaluate the sync pass. -/
def item0 : SyncQueueItem := ⟨"proof_1", .proof, 0, 5, 0⟩

/-- A concrete queued item that has already failed twice. -/
def item2 : SyncQueueItem := ⟨"proof_2", .proof, 1, 6, 2⟩

/-- A one-item sync state: item0 sits in the syncQueue store, in the proofs
data store and in the in-memory pending list. -/
def stOne : SyncState := ⟨[item0], ["proof_1"], [], [item0]⟩

/-- A two-item sync state for exercising both loop branches. -/
def stTwo : SyncState := ⟨[item0, item2], ["proof_1", "proof_2"], [], [item0, item2]⟩

/-- A POST outcome where every request succeeds. -/
def okAll : SyncQueueItem → Bool := fun _ => true

/-- A POST outcome where every request fails. -/
def okNone : SyncQueueItem → Bool := fun _ => false

end Offline

namespace TradeFlow

/-- Concrete unpaused protocol configuration for witnesses. -/
def cfgLive : ProtocolConfig := ⟨7, 3, 9, false, 0⟩

/-- Concrete paused protocol configuration for witnesses. -/
def cfgPaused : ProtocolConfig := ⟨7, 3, 9, true, 0⟩

/-- Concrete unescrowed invoice for witnesses. -/
def inv0 : Invoice := ⟨1, 2, 100, 1, 50, 4, false⟩

/-- Concrete escrowed invoice for witnesses. -/
def invE : Invoice := ⟨1, 2, 100, 1, 50, 4, true⟩

/-- Concrete active loan, collateralized by invoice 0, for witnesses. -/
def loan0 : Loan := ⟨0, 5, 0, 40, 0, 10, 20, false, false⟩

/-- Base ledger: invoice 0 unescrowed, no loans, everyone holds 1000. -/
def sBase : LedgerState :=
  ⟨cfgLive, 99, fun i => if i = 0 then some inv0 else none, fun _ => none,
    fun _ => 1000, 1⟩

/-- Base ledger with the pause switch on. -/
def sPaused : LedgerState := { sBase with config := cfgPaused }

/-- Base ledger with invoice 0 already escrowed. -/
def sEscrowed : LedgerState :=
  { sBase with invoices := fun i => if i = 0 then some invE else none }

/-- Ledger holding the active loan 0 against escrowed invoice 0. -/
def sLoan : LedgerState :=
  ⟨{ cfgLive with next_loan_id := 1 }, 99,
    fun i => if i = 0 then some invE else none,
    fun i => if i = 0 then some loan0 else none,
    fun _ => 1000, 1⟩

/-- A verifier that rejects every signature. -/
def noVerify : MintPayload → Sig → PubKey → Bool := fun _ _ _ => false

/-- A verifier that accepts every signature. -/
def yesVerify : MintPayload → Sig → PubKey → Bool := fun _ _ _ => true

end TradeFlow

namespace TradeFlow

/-- Truncating division cancels a common positive factor next to 100. -/
theorem tdiv_mul_cancel_100 (p : Int) (n : Nat) (h : 0 < n) :
    Int.tdiv (p * n) (100 * n) = Int.tdiv p 100 := by
  have hn : (0 : Int) < n := by exact_mod_cast h
  obtain ⟨m, rfl | rfl⟩ := Int.eq_nat_or_neg p
  · rw [Int.tdiv_eq_ediv (by positivity) (by positivity),
      Int.tdiv_eq_ediv (by positivity) (by norm_num),
      mul_comm (m : Int) (n : Int), show (100 : Int) * n = n * 100 by ring,
      Int.mul_ediv_mul_of_pos _ _ hn]
  · rw [Int.neg_mul, Int.neg_tdiv, Int.neg_tdiv,
      Int.tdiv_eq_ediv (by positivity) (by positivity),
      Int.tdiv_eq_ediv (by positivity) (by norm_num),
      mul_comm (m : Int) (n : Int), show (100 : Int) * n = n * 100 by ring,
      Int.mul_ediv_mul_of_pos _ _ hn]

/-- C1: interest is principal * 5 * elapsed_seconds / (100 * seconds_per_year)
in truncating integer arithmetic with elapsed_seconds floored at 0; at
elapsed 0 the interest is 0 so the total due is exactly the principal, and at
exactly one year it is principal * 5 / 100, giving 50 and a total of 1050 for
principal 1000. -/
theorem c1_interest_correct (p : Int) (st : Nat) :
    (∀ now, calculate_interest p st now =
      Int.tdiv (p * 5 * ((now - st : Nat) : Int)) (100 * (SECONDS_PER_YEAR : Int))) ∧
    (∀ now, now ≤ st →
      calculate_interest p st now = 0 ∧ p + calculate_interest p st now = p) ∧
    calculate_interest p st st = 0 ∧
    calculate_interest p st (st + SECONDS_PER_YEAR) = Int.tdiv (p * 5) 100 ∧
    calculate_interest 1000 st (st + SECONDS_PER_YEAR) = 50 ∧
    1000 + calculate_interest 1000 st (st + SECONDS_PER_YEAR) = 1050 := by
  have hzero : ∀ now, now ≤ st → calculate_interest p st now = 0 := by
    intro now h
    unfold calculate_interest
    rw [Nat.sub_eq_zero_of_le h]
    simp
  have hyear : ∀ q : Int, calculate_interest q st (st + SECONDS_PER_YEAR) =
      Int.tdiv (q * 5) 100 := by
    intro q
    unfold calculate_interest
    rw [Nat.add_sub_cancel_left]
    exact tdiv_mul_cancel_100 (q * 5) SECONDS_PER_YEAR (by norm_num [SECONDS_PER_YEAR])
  refine ⟨fun now => rfl, fun now h => ⟨hzero now h, by rw [hzero now h]; ring⟩,
    hzero st le_rfl, hyear p, ?_, ?_⟩
  · rw [hyear 1000]; decide
  · rw [hyear 1000]; decide

/-- C1 witness: the edge cases evaluated at concrete inputs. -/
theorem c1_witness :
    calculate_interest 7 5 3 = 0 ∧ (7 : Int) + calculate_interest 7 5 3 = 7 ∧
    calculate_interest 1000 5 (5 + SECONDS_PER_YEAR) = 50 :=
  ⟨((c1_interest_correct 7 5).2.1 3 (by decide)).1,
   ((c1_interest_correct 7 5).2.1 3 (by decide)).2,
   (c1_interest_correct 1000 5).2.2.2.2.1⟩

/-- C4: whenever paused is set, borrow, repay_loan and liquidate abort with
ContractPaused whatever their arguments, leaving the state unchanged; no
origination, repayment or liquidation succeeds while paused. -/
theorem c4_paused_blocks (verify : MintPayload → Sig → PubKey → Bool)
    (s : LedgerState) (now caller iid : Nat) (p : Int) (term lid lid2 : Nat)
    (h : s.config.paused = true) :
    stepRun verify s now caller (.borrow iid p term) = (some .ContractPaused, s) ∧
    stepRun verify s now caller (.repay_loan lid) = (some .ContractPaused, s) ∧
    stepRun verify s now caller (.liquidate lid2) = (some .ContractPaused, s) := by
  refine ⟨?_, ?_, ?_⟩ <;>
    simp [stepRun, step, borrow, repay_loan, liquidate, h]

/-- C4 witness: the three blocked entry points on a concrete paused ledger. -/
theorem c4_witness :
    sPaused.config.paused = true ∧
    stepRun yesVerify sPaused 0 0 (.borrow 0 10 5) = (some .ContractPaused, sPaused) ∧
    stepRun yesVerify sPaused 0 0 (.repay_loan 0) = (some .ContractPaused, sPaused) ∧
    stepRun yesVerify sPaused 0 0 (.liquidate 0) = (some .ContractPaused, sPaused) := by
  refine ⟨rfl, ?_⟩
  exact c4_paused_blocks yesVerify sPaused 0 0 0 10 5 0 0 rfl

/-- C2: a failed invocation surfaces its specific error tag and leaves every
persisted record exactly as before; in particular an admin-only entry point
invoked by a non-admin caller fails with Unauthorized, so paused and
backend_pubkey are untouched, and no invocation commits a partial effect. -/
theorem c2_atomic_errors (verify : MintPayload → Sig → PubKey → Bool)
    (s : LedgerState) (now caller : Nat) (c : Call) (flag : Bool) (key : PubKey) :
    (∀ e, (stepRun verify s now caller c).1 = some e →
      (stepRun verify s now caller c).2 = s) ∧
    (caller ≠ s.config.admin →
      stepRun verify s now caller (.set_paused flag) = (some .Unauthorized, s) ∧
      stepRun verify s now caller (.set_backend_pubkey key) = (some .Unauthorized, s)) := by
  constructor
  · intro e
    unfold stepRun
    cases h : step verify s now caller c with
    | error e2 => intro _; rfl
    | ok v => simp
  · intro hne
    constructor <;> simp [stepRun, step, set_paused, set_backend_pubkey, hne]

/-- C2 witness: a non-admin caller on a concrete ledger, and a concrete
failing invocation whose state is returned unchanged. -/
theorem c2_witness :
    (0 : Nat) ≠ sBase.config.admin ∧
    stepRun yesVerify sBase 0 0 (.set_paused true) = (some .Unauthorized, sBase) ∧
    stepRun yesVerify sBase 0 0 (.set_backend_pubkey 4) = (some .Unauthorized, sBase) ∧
    (stepRun yesVerify sPaused 0 0 (.repay_loan 0)).2 = sPaused := by
  refine ⟨by decide, ?_, ?_, ?_⟩
  · exact ((c2_atomic_errors yesVerify sBase 0 0 (.set_paused true) true 4).2 (by decide)).1
  · exact ((c2_atomic_errors yesVerify sBase 0 0 (.set_paused true) true 4).2 (by decide)).2
  · exact (c2_atomic_errors yesVerify sPaused 0 0 (.repay_loan 0) true 4).1
      .ContractPaused rfl

/-- C6: a mint attempt whose due_date is not strictly in the future aborts
with InvoiceExpired and persists nothing; and a successful mint implies the
due_date was strictly in the future at mint time, the fresh id is returned
and the persisted record carries exactly the submitted fields with escrowed
false. -/
theorem c6_mint_expired (verify : MintPayload → Sig → PubKey → Bool)
    (s : LedgerState) (now caller owner mh : Nat) (fv : Int) (cur dd rs : Nat)
    (sig : Sig) :
    (dd ≤ now →
      stepRun verify s now caller (.mint owner mh fv cur dd rs sig) =
        (some .InvoiceExpired, s)) ∧
    (∀ r s2, step verify s now caller (.mint owner mh fv cur dd rs sig) = .ok (r, s2) →
      now < dd ∧ r = some s.next_invoice_id ∧
      s2.invoices s.next_invoice_id = some ⟨owner, mh, fv, cur, dd, rs, false⟩) := by
  constructor
  · intro h
    simp [stepRun, step, mint, h]
  · intro r s2 hok
    simp only [step, mint] at hok
    by_cases h1 : dd ≤ now
    · rw [if_pos h1] at hok
      simp at hok
    · rw [if_neg h1] at hok
      refine ⟨Nat.lt_of_not_le (fun h => h1 h), ?_⟩
      by_cases h2 : verify ⟨owner, mh, fv, cur, dd, rs⟩ sig s.config.backend_pubkey = false
      · rw [if_pos h2] at hok
        simp at hok
      · rw [if_neg h2] at hok
        simp only [Except.ok.injEq, Prod.mk.injEq] at hok
        obtain ⟨hr, hs⟩ := hok
        subst hr hs
        simp

/-- C6 witness: an expired attempt rejected, and a successful mint on the
concrete base ledger yielding a future-dated record. -/
theorem c6_witness :
    ((3 : Nat) ≤ 5 ∧
      stepRun yesVerify sBase 5 0 (.mint 1 2 100 1 3 4 [2]) =
        (some .InvoiceExpired, sBase)) ∧
    ((5 : Nat) < 9 ∧
      (stepRun yesVerify sBase 5 0 (.mint 1 2 100 1 9 4 [2])).2.invoices
        sBase.next_invoice_id = some ⟨1, 2, 100, 1, 9, 4, false⟩) := by
  constructor
  · exact ⟨by decide,
      (c6_mint_expired yesVerify sBase 5 0 1 2 100 1 3 4 [2]).1 (by decide)⟩
  · refine ⟨by decide, ?_⟩
    have h := (c6_mint_expired yesVerify sBase 5 0 1 2 100 1 9 4 [2]).2
      (some sBase.next_invoice_id)
      (stepRun yesVerify sBase 5 0 (.mint 1 2 100 1 9 4 [2])).2 rfl
    exact h.2.2

/-- C7 is false as stated: on a mint attempt whose signature does not verify
but whose due_date has also passed, the invocation aborts with
InvoiceExpired, not InvalidSignature, because the expiry check runs first. -/
theorem c7_counterexample :
    noVerify ⟨1, 2, 100, 1, 3, 4⟩ [2] sBase.config.backend_pubkey = false ∧
    (3 : Nat) ≤ 5 ∧
    (stepRun noVerify sBase 5 0 (.mint 1 2 100 1 3 4 [2])).1 = some .InvoiceExpired ∧
    (stepRun noVerify sBase 5 0 (.mint 1 2 100 1 3 4 [2])).1 ≠ some .InvalidSignature := by
  refine ⟨rfl, by decide, rfl, by decide⟩

/-- C7 amended: for every mint attempt whose due_date is strictly in the
future, a signature that does not verify against backend_pubkey over the
canonical payload aborts the transaction with InvalidSignature and persists
no Invoice; only a validly signed payload mints, returning the fresh id and
persisting the record. -/
theorem c7_mint_signature_amended (verify : MintPayload → Sig → PubKey → Bool)
    (s : LedgerState) (now caller owner mh : Nat) (fv : Int) (cur dd rs : Nat)
    (sig : Sig) (hd : now < dd) :
    (verify ⟨owner, mh, fv, cur, dd, rs⟩ sig s.config.backend_pubkey = false →
      stepRun verify s now caller (.mint owner mh fv cur dd rs sig) =
        (some .InvalidSignature, s)) ∧
    (verify ⟨owner, mh, fv, cur, dd, rs⟩ sig s.config.backend_pubkey = true →
      step verify s now caller (.mint owner mh fv cur dd rs sig) =
        .ok (some s.next_invoice_id, { s with
          invoices := fun i => if i = s.next_invoice_id
            then some ⟨owner, mh, fv, cur, dd, rs, false⟩ else s.invoices i,
          next_invoice_id := s.next_invoice_id + 1 })) := by
  have h1 : ¬ dd ≤ now := Nat.not_le.mpr hd
  constructor
  · intro hv
    simp [stepRun, step, mint, h1, hv]
  · intro hv
    simp [step, mint, h1, hv]

/-- C5: an active loan cannot be liquidated while now is at most due_date
(LoanNotDefaulted, state unchanged); once past due_date liquidation succeeds,
marking the loan defaulted and moving the invoice to the pool un-escrowed,
and any second liquidate call on the same loan fails with AlreadyFinalized. -/
theorem c5_liquidate_due (verify : MintPayload → Sig → PubKey → Bool)
    (s : LedgerState) (now caller lid : Nat) (loan : Loan) (inv : Invoice)
    (hp : s.config.paused = false)
    (hl : s.loans lid = some loan)
    (hr : loan.is_repaid = false) (hdf : loan.is_defaulted = false)
    (hi : s.invoices loan.invoice_id = some inv) :
    (now ≤ loan.due_date →
      stepRun verify s now caller (.liquidate lid) = (some .LoanNotDefaulted, s)) ∧
    (loan.due_date < now →
      (stepRun verify s now caller (.liquidate lid)).1 = none ∧
      (stepRun verify s now caller (.liquidate lid)).2.loans lid =
        some { loan with is_defaulted := true } ∧
      (stepRun verify s now caller (.liquidate lid)).2.invoices loan.invoice_id =
        some { inv with owner := s.pool, escrowed := false } ∧
      (∀ now2 caller2,
        (stepRun verify ((stepRun verify s now caller (.liquidate lid)).2)
          now2 caller2 (.liquidate lid)).1 = some .AlreadyFinalized)) := by
  constructor
  · intro h
    simp [stepRun, step, liquidate, hp, hl, hr, hdf, h]
  · intro h
    have hn : ¬ now ≤ loan.due_date := Nat.not_le.mpr h
    refine ⟨?_, ?_, ?_, ?_⟩ <;>
      simp [stepRun, step, liquidate, transfer_ownership, set_escrowed,
        hp, hl, hr, hdf, hi, hn]

/-- C5 witness: the concrete active loan, healthy at time 15, liquidated at
time 30, then rejected on the second attempt. -/
theorem c5_witness :
    (sLoan.config.paused = false ∧ sLoan.loans 0 = some loan0 ∧
      loan0.is_repaid = false ∧ loan0.is_defaulted = false ∧
      sLoan.invoices loan0.invoice_id = some invE) ∧
    ((15 : Nat) ≤ loan0.due_date ∧
      stepRun yesVerify sLoan 15 0 (.liquidate 0) = (some .LoanNotDefaulted, sLoan)) ∧
    (loan0.due_date < 30 ∧
      (stepRun yesVerify sLoan 30 0 (.liquidate 0)).1 = none ∧
      (stepRun yesVerify ((stepRun yesVerify sLoan 30 0 (.liquidate 0)).2)
        31 1 (.liquidate 0)).1 = some .AlreadyFinalized) := by
  have h := c5_liquidate_due yesVerify sLoan 15 0 0 loan0 invE rfl rfl rfl rfl rfl
  have h2 := c5_liquidate_due yesVerify sLoan 30 0 0 loan0 invE rfl rfl rfl rfl rfl
  exact ⟨⟨rfl, rfl, rfl, rfl, rfl⟩,
    ⟨by decide, h.1 (by decide)⟩,
    ⟨by decide, (h2.2 (by decide)).1, (h2.2 (by decide)).2.2.2 31 1⟩⟩

/-- C8: borrow on an escrowed invoice fails with AlreadyEscrowed creating no
Loan; borrow on a free invoice escrows it, and a following successful
repay_loan leaves it escrowed false with its owner unchanged, while a
following successful liquidate leaves it escrowed false with its owner
transferred to the pool. -/
theorem c8_escrow_roundtrip (verify : MintPayload → Sig → PubKey → Bool)
    (s : LedgerState) (now term now2 caller caller2 iid : Nat) (p : Int)
    (inv : Invoice)
    (hp : s.config.paused = false)
    (hi : s.invoices iid = some inv)
    (hpf : p ≤ inv.face_value) :
    (inv.escrowed = true →
      stepRun verify s now caller (.borrow iid p term) = (some .AlreadyEscrowed, s)) ∧
    (inv.escrowed = false →
      (stepRun verify s now caller (.borrow iid p term)).1 = none ∧
      (stepRun verify s now caller (.borrow iid p term)).2.invoices iid =
        some { inv with escrowed := true } ∧
      (p + calculate_interest p now now2 ≤ s.balances caller →
        (stepRun verify (stepRun verify s now caller (.borrow iid p term)).2
          now2 caller2 (.repay_loan s.config.next_loan_id)).1 = none ∧
        (stepRun verify (stepRun verify s now caller (.borrow iid p term)).2
          now2 caller2 (.repay_loan s.config.next_loan_id)).2.invoices iid =
          some { inv with escrowed := false }) ∧
      (now + term < now2 →
        (stepRun verify (stepRun verify s now caller (.borrow iid p term)).2
          now2 caller2 (.liquidate s.config.next_loan_id)).1 = none ∧
        (stepRun verify (stepRun verify s now caller (.borrow iid p term)).2
          now2 caller2 (.liquidate s.config.next_loan_id)).2.invoices iid =
          some { inv with owner := s.pool, escrowed := false })) := by
  have hnpf : ¬ inv.face_value < p := not_lt.mpr hpf
  constructor
  · intro he
    simp [stepRun, step, borrow, hp, hi, he, hnpf]
  · intro he
    refine ⟨?_, ?_, ?_, ?_⟩
    · simp [stepRun, step, borrow, hp, hi, he, hnpf]
    · simp [stepRun, step, borrow, hp, hi, he, hnpf]
    · intro hbal
      have hnb : ¬ s.balances caller < p + calculate_interest p now now2 :=
        not_lt.mpr hbal
      constructor <;>
        simp [stepRun, step, borrow, repay_loan, set_escrowed,
          hp, hi, he, hnpf, hnb]
    · intro hdue
      have hnd : ¬ now2 ≤ now + term := Nat.not_le.mpr hdue
      constructor <;>
        simp [stepRun, step, borrow, liquidate, transfer_ownership,
          set_escrowed, hp, hi, he, hnpf, hnd]

/-- C8 witness: the blocked borrow on the escrowed ledger, and both round
trips on the free ledger. -/
theorem c8_witness :
    (sEscrowed.config.paused = false ∧ sEscrowed.invoices 0 = some invE ∧
      (40 : Int) ≤ invE.face_value ∧ invE.escrowed = true ∧
      stepRun yesVerify sEscrowed 10 5 (.borrow 0 40 10) =
        (some .AlreadyEscrowed, sEscrowed)) ∧
    (sBase.config.paused = false ∧ sBase.invoices 0 = some inv0 ∧
      (40 : Int) ≤ inv0.face_value ∧ inv0.escrowed = false ∧
      (stepRun yesVerify (stepRun yesVerify sBase 10 5 (.borrow 0 40 10)).2
        10 5 (.repay_loan sBase.config.next_loan_id)).2.invoices 0 =
        some { inv0 with escrowed := false } ∧
      (stepRun yesVerify (stepRun yesVerify sBase 10 5 (.borrow 0 40 10)).2
        30 5 (.liquidate sBase.config.next_loan_id)).2.invoices 0 =
        some { inv0 with owner := sBase.pool, escrowed := false }) := by
  have h1 := c8_escrow_roundtrip yesVerify sEscrowed 10 10 10 5 5 0 40 invE
    rfl rfl (by decide)
  have h2 := c8_escrow_roundtrip yesVerify sBase 10 10 10 5 5 0 40 inv0
    rfl rfl (by decide)
  have h3 := c8_escrow_roundtrip yesVerify sBase 10 10 30 5 5 0 40 inv0
    rfl rfl (by decide)
  refine ⟨⟨rfl, rfl, by decide, rfl, h1.1 rfl⟩,
    ⟨rfl, rfl, by decide, rfl, ?_, ?_⟩⟩
  · exact ((h2.2 rfl).2.2.1 (by decide)).2
  · exact ((h3.2 rfl).2.2.2 (by decide)).2

/-- Loan evolution is reflexive. -/
theorem loanEvolves_refl (l : Loan) : LoanEvolves l l :=
  ⟨fun _ => rfl, fun h => h, fun h => h⟩

/-- Loan evolution composes. -/
theorem loanEvolves_trans {a b c : Loan} (h1 : LoanEvolves a b)
    (h2 : LoanEvolves b c) : LoanEvolves a c := by
  obtain ⟨f1, r1, d1⟩ := h1
  obtain ⟨f2, r2, d2⟩ := h2
  refine ⟨?_, fun h => r2 (r1 h), fun h => d2 (d1 h)⟩
  intro h
  have hb : b = a := f1 h
  have hc : c = b := f2 (by rw [hb]; exact h)
  rw [hc, hb]

/-- An invocation that does not touch the loan store or the loan counter
preserves the loan invariant. -/
theorem loansInv_of_untouched {s s2 : LedgerState} (hl : s2.loans = s.loans)
    (hn : s2.config.next_loan_id = s.config.next_loan_id)
    (hInv : LoansInv s) : LoansInv s2 := by
  constructor
  · intro id l h
    exact hInv.1 id l (by rw [hl] at h; exact h)
  · intro id h
    rw [hl]
    exact hInv.2 id (by rw [← hn]; exact h)

/-- An invocation that does not touch the loan store evolves every loan
reflexively. -/
theorem evolve_of_untouched {s s2 : LedgerState} (hl : s2.loans = s.loans) :
    ∀ id l, s.loans id = some l →
      ∃ l2, s2.loans id = some l2 ∧ LoanEvolves l l2 :=
  fun id l h => ⟨l, by rw [hl]; exact h, loanEvolves_refl l⟩

/-- One committed invocation preserves the loan invariant and evolves every
existing loan along the allowed lifecycle. -/
theorem stepRun_loans_evolve (verify : MintPayload → Sig → PubKey → Bool)
    (s : LedgerState) (now caller : Nat) (c : Call) (hInv : LoansInv s) :
    LoansInv (stepRun verify s now caller c).2 ∧
    (∀ id l, s.loans id = some l →
      ∃ l2, (stepRun verify s now caller c).2.loans id = some l2 ∧
        LoanEvolves l l2) := by
  unfold stepRun
  cases hstep : step verify s now caller c with
  | error e =>
    exact ⟨hInv, fun id l hl => ⟨l, hl, loanEvolves_refl l⟩⟩
  | ok v =>
    obtain ⟨r, s2⟩ := v
    show LoansInv s2 ∧ ∀ id l, s.loans id = some l →
      ∃ l2, s2.loans id = some l2 ∧ LoanEvolves l l2
    cases c with
    | mint owner mh fv cur dd rs sig =>
      simp only [step, mint] at hstep
      split_ifs at hstep <;> simp at hstep
      obtain ⟨hr, hs⟩ := hstep
      subst hs
      exact ⟨loansInv_of_untouched rfl rfl hInv, evolve_of_untouched rfl⟩
    | set_backend_pubkey key =>
      simp only [step, set_backend_pubkey] at hstep
      split_ifs at hstep <;> simp at hstep
      obtain ⟨hr, hs⟩ := hstep
      subst hs
      exact ⟨loansInv_of_untouched rfl rfl hInv, evolve_of_untouched rfl⟩
    | set_paused flag =>
      simp only [step, set_paused] at hstep
      split_ifs at hstep <;> simp at hstep
      obtain ⟨hr, hs⟩ := hstep
      subst hs
      exact ⟨loansInv_of_untouched rfl rfl hInv, evolve_of_untouched rfl⟩
    | borrow invoice_id principal term_duration =>
      simp only [step, borrow] at hstep
      split_ifs at hstep <;> try simp at hstep
      cases hi : s.invoices invoice_id with
      | none => rw [hi] at hstep; simp at hstep
      | some inv =>
        rw [hi] at hstep
        dsimp only at hstep
        split_ifs at hstep <;> try simp at hstep
        obtain ⟨hr, hs⟩ := hstep
        subst hs
        constructor
        · constructor
          · intro id l hl
            by_cases hid : id = s.config.next_loan_id
            · subst hid
              simp only [Option.some.injEq] at hl
              simp at hl
              subst hl
              simp
            · simp [hid] at hl
              exact hInv.1 id l hl
          · intro id hle
            have h1 : s.config.next_loan_id + 1 ≤ id := hle
            have hid : id ≠ s.config.next_loan_id := by omega
            simp [hid]
            exact hInv.2 id (by omega)
        · intro id l hl
          have hlt : ¬ s.config.next_loan_id ≤ id := by
            intro hle
            rw [hInv.2 id hle] at hl
            cases hl
          have hid : id ≠ s.config.next_loan_id := by omega
          exact ⟨l, by simp [hid]; exact hl, loanEvolves_refl l⟩
    | repay_loan loan_id =>
      simp only [step, repay_loan] at hstep
      split_ifs at hstep <;> try simp at hstep
      cases hlk : s.loans loan_id with
      | none => rw [hlk] at hstep; simp at hstep
      | some loan =>
        rw [hlk] at hstep
        dsimp only at hstep
        split_ifs at hstep with hfin hbal <;> try simp at hstep
        rw [not_or] at hfin
        obtain ⟨hfr, hfd⟩ := hfin
        rw [Bool.not_eq_true] at hfr hfd
        simp only [set_escrowed] at hstep
        cases hi : s.invoices loan.invoice_id with
        | none => rw [hi] at hstep; simp at hstep
        | some inv =>
          rw [hi] at hstep
          dsimp only at hstep
          simp at hstep
          obtain ⟨hr, hs⟩ := hstep
          subst hs
          constructor
          · constructor
            · intro id l hl
              by_cases hid : id = loan_id
              · subst hid
                simp at hl
                subst hl
                simp [hfd]
              · simp [hid] at hl
                exact hInv.1 id l hl
            · intro id hle
              have hne : id ≠ loan_id := by
                intro hEq
                subst hEq
                rw [hInv.2 id hle] at hlk
                cases hlk
              simp [hne]
              exact hInv.2 id hle
          · intro id l hl
            by_cases hid : id = loan_id
            · subst hid
              rw [hlk] at hl
              injection hl with hl2
              subst hl2
              refine ⟨{ loan with
                  interest := calculate_interest loan.principal loan.start_time now,
                  is_repaid := true }, by simp, ?_, fun h => rfl, fun h => h⟩
              intro hfin2
              rw [hfr, hfd] at hfin2
              rcases hfin2 with h | h <;> cases h
            · exact ⟨l, by simp [hid]; exact hl, loanEvolves_refl l⟩
    | liquidate loan_id =>
      simp only [step, liquidate] at hstep
      split_ifs at hstep <;> try simp at hstep
      cases hlk : s.loans loan_id with
      | none => rw [hlk] at hstep; simp at hstep
      | some loan =>
        rw [hlk] at hstep
        dsimp only at hstep
        split_ifs at hstep with hfin hdue <;> try simp at hstep
        rw [not_or] at hfin
        obtain ⟨hfr, hfd⟩ := hfin
        rw [Bool.not_eq_true] at hfr hfd
        simp only [transfer_ownership, set_escrowed] at hstep
        cases hi : s.invoices loan.invoice_id with
        | none => rw [hi] at hstep; simp at hstep
        | some inv =>
          rw [hi] at hstep
          dsimp only at hstep
          simp at hstep
          obtain ⟨hr, hs⟩ := hstep
          subst hs
          constructor
          · constructor
            · intro id l hl
              by_cases hid : id = loan_id
              · subst hid
                simp at hl
                subst hl
                simp [hfr]
              · simp [hid] at hl
                exact hInv.1 id l hl
            · intro id hle
              have hne : id ≠ loan_id := by
                intro hEq
                subst hEq
                rw [hInv.2 id hle] at hlk
                cases hlk
              simp [hne]
              exact hInv.2 id hle
          · intro id l hl
            by_cases hid : id = loan_id
            · subst hid
              rw [hlk] at hl
              injection hl with hl2
              subst hl2
              refine ⟨{ loan with is_defaulted := true }, by simp, ?_, fun h => h, fun h => rfl⟩
              intro hfin2
              rw [hfr, hfd] at hfin2
              rcases hfin2 with h | h <;> cases h
            · exact ⟨l, by simp [hid]; exact hl, loanEvolves_refl l⟩

/-- C3: along every sequence of entry-point invocations from a state
satisfying the loan invariant, is_repaid and is_defaulted are never
simultaneously true, each flag only ever moves from false to true, and once
either flag is set the loan record is never mutated again: the only loan
transitions are Active to Repaid and Active to Defaulted, both terminal. -/
theorem c3_loan_lifecycle (verify : MintPayload → Sig → PubKey → Bool)
    (s : LedgerState) (tr : List (Nat × Address × Call)) (hInv : LoansInv s) :
    LoansInv (runTrace verify s tr) ∧
    (∀ id l, s.loans id = some l →
      ∃ l2, (runTrace verify s tr).loans id = some l2 ∧ LoanEvolves l l2) := by
  induction tr generalizing s with
  | nil => exact ⟨hInv, fun id l hl => ⟨l, hl, loanEvolves_refl l⟩⟩
  | cons hd tl ih =>
    obtain ⟨now, caller, c⟩ := hd
    simp only [runTrace]
    have hstep := stepRun_loans_evolve verify s now caller c hInv
    have hrest := ih (stepRun verify s now caller c).2 hstep.1
    refine ⟨hrest.1, ?_⟩
    intro id l hl
    obtain ⟨l1, hl1, he1⟩ := hstep.2 id l hl
    obtain ⟨l2, hl2, he2⟩ := hrest.2 id l1 hl1
    exact ⟨l2, hl2, loanEvolves_trans he1 he2⟩

/-- C3 witness: the invariant holds after a concrete borrow plus liquidate
trace from the concrete base ledger. -/
theorem c3_witness :
    LoansInv sBase ∧
    LoansInv (runTrace yesVerify sBase
      [(10, 5, .borrow 0 40 10), (30, 1, .liquidate 0)]) :=
  have h : LoansInv sBase :=
    ⟨fun id l hl => by simp [sBase] at hl, fun id hle => rfl⟩
  ⟨h, (c3_loan_lifecycle yesVerify sBase
    [(10, 5, .borrow 0 40 10), (30, 1, .liquidate 0)] h).1⟩

/-- C7 amended witness: rejection and acceptance on the concrete ledger. -/
theorem c7_witness :
    (5 : Nat) < 9 ∧
    noVerify ⟨1, 2, 100, 1, 9, 4⟩ [2] sBase.config.backend_pubkey = false ∧
    stepRun noVerify sBase 5 0 (.mint 1 2 100 1 9 4 [2]) =
      (some .InvalidSignature, sBase) := by
  refine ⟨by decide, rfl, ?_⟩
  exact (c7_mint_signature_amended noVerify sBase 5 0 1 2 100 1 9 4 [2]
    (by decide)).1 rfl

end TradeFlow

namespace Api

/-- C9: every GET /api/assets response carries the complete 12-entry mock
asset table, never sliced to the requested page; page and limit are the
parseInt results with fallbacks 1 and 10 (taken when the parameter is absent
or non-numeric) and are echoed back in the pagination object with total 12. -/
theorem c9_assets_unpaginated (pageQ limitQ : Option String) :
    (getAssets pageQ limitQ).assets = mockAssets ∧
    mockAssets.length = 12 ∧
    (getAssets pageQ limitQ).pagination.total = 12 ∧
    (getAssets pageQ limitQ).pagination.page = jsNumOr (pageQ.bind parseIntJS) 1 ∧
    (getAssets pageQ limitQ).pagination.limit = jsNumOr (limitQ.bind parseIntJS) 10 ∧
    ((pageQ = none ∨ ∃ q, pageQ = some q ∧ parseIntJS q = none) →
      (getAssets pageQ limitQ).pagination.page = 1) ∧
    ((limitQ = none ∨ ∃ q, limitQ = some q ∧ parseIntJS q = none) →
      (getAssets pageQ limitQ).pagination.limit = 10) := by
  refine ⟨rfl, rfl, rfl, rfl, rfl, ?_, ?_⟩
  · rintro (rfl | ⟨q, rfl, hq⟩)
    · rfl
    · simp [getAssets, hq, jsNumOr]
  · rintro (rfl | ⟨q, rfl, hq⟩)
    · rfl
    · simp [getAssets, hq, jsNumOr]

/-- C9 witness: a non-numeric page parameter and an absent limit parameter
yield the defaults and the unsliced table. -/
theorem c9_witness :
    (getAssets (some ("abc")) none).assets = mockAssets ∧
    (getAssets (some ("abc")) none).pagination.page = 1 ∧
    (getAssets (some ("abc")) none).pagination.limit = 10 ∧
    (getAssets (some ("abc")) none).pagination.total = 12 :=
  ⟨(c9_assets_unpaginated (some ("abc")) none).1,
   (c9_assets_unpaginated (some ("abc")) none).2.2.2.2.2.1
     (Or.inr ⟨"abc", rfl, by decide⟩),
   (c9_assets_unpaginated (some ("abc")) none).2.2.2.2.2.2 (Or.inl rfl),
   (c9_assets_unpaginated (some ("abc")) none).2.2.1⟩

end Api

namespace Offline

/-- A member of the queue after put is an old member or the put item. -/
theorem mem_putQueue {q : List SyncQueueItem} {u y : SyncQueueItem}
    (h : y ∈ putQueue q u) : y ∈ q ∨ y = u := by
  unfold putQueue at h
  split_ifs at h with hany
  · obtain ⟨x, hx, hfx⟩ := List.mem_map.mp h
    by_cases hid : (x.id == u.id) = true
    · rw [if_pos hid] at hfx
      exact Or.inr hfx.symm
    · rw [if_neg hid] at hfx
      exact Or.inl (hfx ▸ hx)
  · rcases List.mem_append.mp h with h2 | h2
    · exact Or.inl h2
    · exact Or.inr (List.mem_singleton.mp h2)

/-- The put item is a member after put. -/
theorem self_mem_putQueue (q : List SyncQueueItem) (u : SyncQueueItem) :
    u ∈ putQueue q u := by
  unfold putQueue
  split_ifs with hany
  · obtain ⟨x, hx, hxid⟩ := List.any_eq_true.mp hany
    exact List.mem_map.mpr ⟨x, hx, by rw [if_pos hxid]⟩
  · exact List.mem_append.mpr (Or.inr (List.mem_singleton.mpr rfl))

/-- A member keyed differently from the put item survives put. -/
theorem mem_putQueue_of_ne {q : List SyncQueueItem} {u y : SyncQueueItem}
    (hy : y ∈ q) (hne : ¬ y.id = u.id) : y ∈ putQueue q u := by
  unfold putQueue
  split_ifs with hany
  · exact List.mem_map.mpr ⟨y, hy, by rw [if_neg (by simpa using hne)]⟩
  · exact List.mem_append.mpr (Or.inl hy)

/-- Members after delete are old members keyed differently. -/
theorem mem_deleteQueue {q : List SyncQueueItem} {i : String} {y : SyncQueueItem}
    (h : y ∈ deleteQueue q i) : y ∈ q ∧ ¬ y.id = i := by
  unfold deleteQueue at h
  have h2 := List.mem_filter.mp h
  exact ⟨h2.1, by simpa using h2.2⟩

/-- A member keyed differently survives delete. -/
theorem mem_deleteQueue_of_ne {q : List SyncQueueItem} {i : String} {y : SyncQueueItem}
    (hy : y ∈ q) (hne : ¬ y.id = i) : y ∈ deleteQueue q i := by
  unfold deleteQueue
  exact List.mem_filter.mpr ⟨hy, by simpa using hne⟩

/-- Data store deletion membership. -/
theorem mem_deleteStore {l : List String} {i x : String} :
    x ∈ deleteStore l i ↔ x ∈ l ∧ ¬ x = i := by
  unfold deleteStore
  constructor
  · intro h
    have h2 := List.mem_filter.mp h
    exact ⟨h2.1, by simpa using h2.2⟩
  · intro h
    exact List.mem_filter.mpr ⟨h.1, by simpa using h.2⟩

/-- A successful POST leaves the syncQueue store untouched. -/
theorem processItem_queue_of_ok (ok : SyncQueueItem → Bool)
    (acc : SyncState × List SyncQueueItem) (item : SyncQueueItem)
    (hok : ok item = true) :
    (processItem ok acc item).1.syncQueue = acc.1.syncQueue ∧
    (processItem ok acc item).2 = acc.2 := by
  cases htype : item.type <;> simp [processItem, hok, dataDelete, htype]

/-- A successful POST removes the item id from its own data store. -/
theorem processItem_store_of_ok (ok : SyncQueueItem → Bool)
    (acc : SyncState × List SyncQueueItem) (item : SyncQueueItem)
    (hok : ok item = true) :
    ¬ item.id ∈ storeOf (processItem ok acc item).1 item.type := by
  cases htype : item.type <;>
    simp [processItem, hok, dataDelete, storeOf, htype, mem_deleteStore]

/-- A failed POST below the retry cap puts the bumped item back and appends
it to the failed list. -/
theorem processItem_fail_put (ok : SyncQueueItem → Bool)
    (acc : SyncState × List SyncQueueItem) (item : SyncQueueItem)
    (hok : ok item = false) (hlt : item.retryCount + 1 < 3) :
    processItem ok acc item =
      ({ acc.1 with
          syncQueue := putQueue acc.1.syncQueue
            { item with retryCount := item.retryCount + 1 } },
        acc.2 ++ [{ item with retryCount := item.retryCount + 1 }]) := by
  simp [processItem, hok, hlt]

/-- A failed POST at the retry cap deletes the item from the syncQueue store
and drops it. -/
theorem processItem_fail_del (ok : SyncQueueItem → Bool)
    (acc : SyncState × List SyncQueueItem) (item : SyncQueueItem)
    (hok : ok item = false) (hge : ¬ item.retryCount + 1 < 3) :
    processItem ok acc item =
      ({ acc.1 with syncQueue := deleteQueue acc.1.syncQueue item.id }, acc.2) := by
  simp [processItem, hok, hge]

/-- The loop body preserves syncQueue membership at every other key. -/
theorem processItem_queue_frame (ok : SyncQueueItem → Bool)
    (acc : SyncState × List SyncQueueItem) (item : SyncQueueItem)
    {y : SyncQueueItem} (hne : ¬ y.id = item.id) :
    (y ∈ (processItem ok acc item).1.syncQueue ↔ y ∈ acc.1.syncQueue) := by
  simp only [processItem]
  split_ifs with hok hret
  · cases htype : item.type <;> simp [dataDelete, htype]
  · constructor
    · intro h
      rcases mem_putQueue h with h2 | h2
      · exact h2
      · exact absurd (show y.id = item.id by rw [h2]) hne
    · intro h
      exact mem_putQueue_of_ne h hne
  · constructor
    · intro h
      exact (mem_deleteQueue h).1
    · intro h
      exact mem_deleteQueue_of_ne h hne

/-- The loop body preserves data store membership at every other key. -/
theorem processItem_store_frame (ok : SyncQueueItem → Bool)
    (acc : SyncState × List SyncQueueItem) (item : SyncQueueItem)
    {i : String} (hne : ¬ i = item.id) (t : ItemType) :
    (i ∈ storeOf (processItem ok acc item).1 t ↔ i ∈ storeOf acc.1 t) := by
  simp only [processItem]
  split_ifs with hok hret
  · cases htype : item.type <;> cases t <;>
      simp [dataDelete, storeOf, htype, mem_deleteStore, hne]
  · cases t <;> simp [storeOf]
  · cases t <;> simp [storeOf]

/-- The loop body never drops entries from the failed accumulator. -/
theorem processItem_failed_mono (ok : SyncQueueItem → Bool)
    (acc : SyncState × List SyncQueueItem) (item : SyncQueueItem)
    {x : SyncQueueItem} (h : x ∈ acc.2) : x ∈ (processItem ok acc item).2 := by
  simp only [processItem]
  split_ifs
  · exact h
  · exact List.mem_append.mpr (Or.inl h)
  · exact h

/-- Entries the loop body adds to the failed accumulator come from a failed
item, carry the bumped retry count and stay below the cap. -/
theorem processItem_failed_mem (ok : SyncQueueItem → Bool)
    (acc : SyncState × List SyncQueueItem) (item : SyncQueueItem)
    {x : SyncQueueItem} (h : x ∈ (processItem ok acc item).2) :
    x ∈ acc.2 ∨ (ok item = false ∧
      x = { item with retryCount := item.retryCount + 1 } ∧
      item.retryCount + 1 < 3) := by
  simp only [processItem] at h
  split_ifs at h with hok hret
  · exact Or.inl h
  · rcases List.mem_append.mp h with h2 | h2
    · exact Or.inl h2
    · exact Or.inr ⟨by simpa using hok, List.mem_singleton.mp h2, by simpa using hret⟩
  · exact Or.inl h

/-- The loop body keeps every syncQueue entry below the retry cap. -/
theorem processItem_queue_bound (ok : SyncQueueItem → Bool)
    (acc : SyncState × List SyncQueueItem) (item : SyncQueueItem)
    (hq : ∀ y ∈ acc.1.syncQueue, y.retryCount < 3) :
    ∀ y ∈ (processItem ok acc item).1.syncQueue, y.retryCount < 3 := by
  intro y hy
  simp only [processItem] at hy
  split_ifs at hy with hok hret
  · cases htype : item.type <;> rw [htype] at hy <;>
      exact hq y (by simpa [dataDelete] using hy)
  · rcases mem_putQueue hy with h2 | h2
    · exact hq y h2
    · rw [h2]
      simpa using hret
  · exact hq y (mem_deleteQueue hy).1

end Offline

namespace Offline

/-- Folding the loop over items keyed differently from y preserves syncQueue
membership of y. -/
theorem foldl_queue_frame (ok : SyncQueueItem → Bool) (items : List SyncQueueItem) :
    ∀ acc : SyncState × List SyncQueueItem, ∀ y : SyncQueueItem,
      (∀ x ∈ items, ¬ y.id = x.id) →
      (y ∈ (items.foldl (processItem ok) acc).1.syncQueue ↔ y ∈ acc.1.syncQueue) := by
  induction items with
  | nil =>
    intro acc y h
    exact Iff.rfl
  | cons a as ih =>
    intro acc y h
    rw [List.foldl_cons]
    rw [ih (processItem ok acc a) y (fun x hx => h x (List.mem_cons_of_mem a hx))]
    exact processItem_queue_frame ok acc a (h a (List.mem_cons_self a as))

/-- Folding the loop over items keyed differently from i preserves data store
membership of i. -/
theorem foldl_store_frame (ok : SyncQueueItem → Bool) (items : List SyncQueueItem) :
    ∀ acc : SyncState × List SyncQueueItem, ∀ i : String,
      (∀ x ∈ items, ¬ i = x.id) → ∀ t : ItemType,
      (i ∈ storeOf (items.foldl (processItem ok) acc).1 t ↔ i ∈ storeOf acc.1 t) := by
  induction items with
  | nil =>
    intro acc i h t
    exact Iff.rfl
  | cons a as ih =>
    intro acc i h t
    rw [List.foldl_cons]
    rw [ih (processItem ok acc a) i (fun x hx => h x (List.mem_cons_of_mem a hx)) t]
    exact processItem_store_frame ok acc a (h a (List.mem_cons_self a as)) t

/-- Folding the loop never drops entries from the failed accumulator. -/
theorem foldl_failed_mono (ok : SyncQueueItem → Bool) (items : List SyncQueueItem) :
    ∀ acc : SyncState × List SyncQueueItem, ∀ x ∈ acc.2,
      x ∈ (items.foldl (processItem ok) acc).2 := by
  induction items with
  | nil =>
    intro acc x h
    exact h
  | cons a as ih =>
    intro acc x h
    rw [List.foldl_cons]
    exact ih (processItem ok acc a) x (processItem_failed_mono ok acc a h)

/-- Every entry of the folded failed accumulator is an initial entry or the
bumped copy of some failed item, below the retry cap. -/
theorem foldl_failed_mem (ok : SyncQueueItem → Bool) (items : List SyncQueueItem) :
    ∀ acc : SyncState × List SyncQueueItem, ∀ x : SyncQueueItem,
      x ∈ (items.foldl (processItem ok) acc).2 →
      x ∈ acc.2 ∨ ∃ it, it ∈ items ∧ ok it = false ∧
        x = { it with retryCount := it.retryCount + 1 } ∧ it.retryCount + 1 < 3 := by
  induction items with
  | nil =>
    intro acc x h
    exact Or.inl h
  | cons a as ih =>
    intro acc x h
    rw [List.foldl_cons] at h
    rcases ih (processItem ok acc a) x h with h2 | h2
    · rcases processItem_failed_mem ok acc a h2 with h3 | h3
      · exact Or.inl h3
      · exact Or.inr ⟨a, List.mem_cons_self a as, h3.1, h3.2.1, h3.2.2⟩
    · obtain ⟨it, hit, rest⟩ := h2
      exact Or.inr ⟨it, List.mem_cons_of_mem a hit, rest⟩

/-- Folding the loop keeps every syncQueue entry below the retry cap. -/
theorem foldl_queue_bound (ok : SyncQueueItem → Bool) (items : List SyncQueueItem) :
    ∀ acc : SyncState × List SyncQueueItem,
      (∀ y ∈ acc.1.syncQueue, y.retryCount < 3) →
      ∀ y ∈ (items.foldl (processItem ok) acc).1.syncQueue, y.retryCount < 3 := by
  induction items with
  | nil =>
    intro acc h
    exact h
  | cons a as ih =>
    intro acc h
    rw [List.foldl_cons]
    exact ih (processItem ok acc a) (processItem_queue_bound ok acc a h)

end Offline

namespace Offline

/-- C10 is false as stated: a pending item whose POST succeeds is deleted
from its data store and dropped from the in-memory pending list, but it is
never deleted from the persisted syncQueue object store: on the concrete
one-item state the succeeded item is still in the syncQueue store after the
pass, so it is not removed from both the queue and its data store. -/
theorem c10_counterexample :
    okAll item0 = true ∧
    (syncPendingItems okAll true false stOne).proofStore = [] ∧
    (syncPendingItems okAll true false stOne).pendingItems = [] ∧
    (syncPendingItems okAll true false stOne).syncQueue = [item0] := by
  refine ⟨rfl, ?_, ?_, ?_⟩ <;> decide

/-- C10 amended: syncPendingItems retries each queued item whose POST fails
only while its retryCount stays below 3 — after a failure the item is put
back with retryCount incremented when the incremented count is below 3 and
deleted from the syncQueue store otherwise — so no item survives the pass in
the pending list (nor, given an in-bound queue, in the syncQueue store) with
retryCount 3 or more; items whose POST succeeds are removed from their data
store and dropped from the in-memory pending list, but remain in the
persisted syncQueue store. -/
theorem c10_sync_retry_amended (ok : SyncQueueItem → Bool) (st : SyncState)
    (hnd : (st.pendingItems.map SyncQueueItem.id).Nodup) :
    (∀ x ∈ (syncPendingItems ok true false st).pendingItems, x.retryCount < 3) ∧
    ((∀ y ∈ st.syncQueue, y.retryCount < 3) →
      ∀ y ∈ (syncPendingItems ok true false st).syncQueue, y.retryCount < 3) ∧
    (∀ it ∈ st.pendingItems, ok it = true →
      (∀ x ∈ (syncPendingItems ok true false st).pendingItems, ¬ x.id = it.id) ∧
      ¬ it.id ∈ storeOf (syncPendingItems ok true false st) it.type ∧
      (it ∈ st.syncQueue → it ∈ (syncPendingItems ok true false st).syncQueue)) ∧
    (∀ it ∈ st.pendingItems, ok it = false →
      (it.retryCount + 1 < 3 →
        { it with retryCount := it.retryCount + 1 } ∈
          (syncPendingItems ok true false st).pendingItems ∧
        { it with retryCount := it.retryCount + 1 } ∈
          (syncPendingItems ok true false st).syncQueue) ∧
      (¬ it.retryCount + 1 < 3 →
        ∀ y ∈ (syncPendingItems ok true false st).syncQueue, ¬ y.id = it.id)) := by
  by_cases hempty : st.pendingItems.isEmpty
  · have hres : syncPendingItems ok true false st = st := by
      simp [syncPendingItems, hempty]
    have hpe : st.pendingItems = [] := List.isEmpty_iff.mp hempty
    rw [hres, hpe]
    refine ⟨?_, ?_, ?_, ?_⟩
    · intro x hx
      simp at hx
    · intro hq
      exact hq
    · intro it hit
      simp at hit
    · intro it hit
      simp at hit
  · have hres : syncPendingItems ok true false st =
        { (st.pendingItems.foldl (processItem ok) (st, ([] : List SyncQueueItem))).1 with
          pendingItems :=
            (st.pendingItems.foldl (processItem ok) (st, ([] : List SyncQueueItem))).2 } := by
      simp [syncPendingItems, hempty]
    rw [hres]
    refine ⟨?_, ?_, ?_, ?_⟩
    · intro x hx
      rcases foldl_failed_mem ok st.pendingItems (st, []) x hx with h | ⟨it, hit, hokf, hxeq, hlt⟩
      · simp at h
      · rw [hxeq]
        simpa using hlt
    · intro hq y hy
      exact foldl_queue_bound ok st.pendingItems (st, []) hq y hy
    · intro it hit hok
      obtain ⟨pre, post, hsplit⟩ := List.append_of_mem hit
      have hnd2 : ((pre.map SyncQueueItem.id) ++
          it.id :: (post.map SyncQueueItem.id)).Nodup := by
        rw [hsplit] at hnd
        simpa using hnd
      have hpre : ∀ x ∈ pre, ¬ it.id = x.id := by
        intro x hx hEq
        exact List.disjoint_of_nodup_append hnd2
          (List.mem_map.mpr ⟨x, hx, hEq.symm⟩) (List.mem_cons_self _ _)
      have hpost : ∀ x ∈ post, ¬ it.id = x.id := by
        intro x hx hEq
        exact (List.nodup_cons.mp (List.Nodup.of_append_right hnd2)).1
          (List.mem_map.mpr ⟨x, hx, hEq.symm⟩)
      refine ⟨?_, ?_, ?_⟩
      · intro x hx hxid
        rcases foldl_failed_mem ok st.pendingItems (st, []) x hx with
          h | ⟨itf, hitf, hokf, hxeq, hltf⟩
        · simp at h
        · have hid : itf.id = it.id := by
            rw [hxeq] at hxid
            simpa using hxid
          have hfe : itf = it := List.inj_on_of_nodup_map hnd hitf hit hid
          rw [hfe, hok] at hokf
          simp at hokf
      · intro hmem
        have hmem2 : it.id ∈
            storeOf ((pre ++ it :: post).foldl (processItem ok) (st, [])).1 it.type := by
          rw [← hsplit]
          exact hmem
        rw [List.foldl_append, List.foldl_cons] at hmem2
        rw [foldl_store_frame ok post _ it.id hpost it.type] at hmem2
        exact processItem_store_of_ok ok (pre.foldl (processItem ok) (st, [])) it hok hmem2
      · intro hq
        have hq1 : it ∈ (pre.foldl (processItem ok) (st, [])).1.syncQueue := by
          rw [foldl_queue_frame ok pre (st, []) it hpre]
          exact hq
        have hq2 : it ∈
            (processItem ok (pre.foldl (processItem ok) (st, [])) it).1.syncQueue := by
          rw [(processItem_queue_of_ok ok _ it hok).1]
          exact hq1
        have hq3 : it ∈
            ((pre ++ it :: post).foldl (processItem ok) (st, [])).1.syncQueue := by
          rw [List.foldl_append, List.foldl_cons]
          rw [foldl_queue_frame ok post _ it hpost]
          exact hq2
        show it ∈ (st.pendingItems.foldl (processItem ok) (st, [])).1.syncQueue
        rw [hsplit]
        exact hq3
    · intro it hit hok
      obtain ⟨pre, post, hsplit⟩ := List.append_of_mem hit
      have hnd2 : ((pre.map SyncQueueItem.id) ++
          it.id :: (post.map SyncQueueItem.id)).Nodup := by
        rw [hsplit] at hnd
        simpa using hnd
      have hpost : ∀ x ∈ post, ¬ it.id = x.id := by
        intro x hx hEq
        exact (List.nodup_cons.mp (List.Nodup.of_append_right hnd2)).1
          (List.mem_map.mpr ⟨x, hx, hEq.symm⟩)
      constructor
      · intro hlt
        have hstep := processItem_fail_put ok
          (pre.foldl (processItem ok) (st, [])) it hok hlt
        constructor
        · have h1 : { it with retryCount := it.retryCount + 1 } ∈
              (processItem ok (pre.foldl (processItem ok) (st, [])) it).2 := by
            rw [hstep]
            exact List.mem_append.mpr (Or.inr (List.mem_singleton.mpr rfl))
          have h2 := foldl_failed_mono ok post
            (processItem ok (pre.foldl (processItem ok) (st, [])) it) _ h1
          show { it with retryCount := it.retryCount + 1 } ∈
            (st.pendingItems.foldl (processItem ok) (st, [])).2
          rw [hsplit, List.foldl_append, List.foldl_cons]
          exact h2
        · have h1 : { it with retryCount := it.retryCount + 1 } ∈
              (processItem ok (pre.foldl (processItem ok) (st, [])) it).1.syncQueue := by
            rw [hstep]
            exact self_mem_putQueue _ _
          have h2 : { it with retryCount := it.retryCount + 1 } ∈
              (post.foldl (processItem ok)
                (processItem ok (pre.foldl (processItem ok) (st, [])) it)).1.syncQueue := by
            rw [foldl_queue_frame ok post _ _ (fun x hx => by simpa using hpost x hx)]
            exact h1
          show { it with retryCount := it.retryCount + 1 } ∈
            (st.pendingItems.foldl (processItem ok) (st, [])).1.syncQueue
          rw [hsplit, List.foldl_append, List.foldl_cons]
          exact h2
      · intro hge y hy hyid
        have hstep := processItem_fail_del ok
          (pre.foldl (processItem ok) (st, [])) it hok hge
        have hy2 : y ∈
            ((pre ++ it :: post).foldl (processItem ok) (st, [])).1.syncQueue := by
          rw [← hsplit]
          exact hy
        rw [List.foldl_append, List.foldl_cons] at hy2
        rw [foldl_queue_frame ok post _ y
          (fun x hx => by rw [hyid]; exact hpost x hx)] at hy2
        rw [hstep] at hy2
        exact (mem_deleteQueue hy2).2 hyid

/-- C10 amended witness: the two-item state with every POST failing has
distinct pending ids, and after the pass every surviving pending item is
below the retry cap. -/
theorem c10_witness :
    (stTwo.pendingItems.map SyncQueueItem.id).Nodup ∧
    (∀ x ∈ (syncPendingItems okNone true false stTwo).pendingItems,
      x.retryCount < 3) :=
  ⟨by decide, (c10_sync_retry_amended okNone stTwo (by decide)).1⟩

end Offline
